import Mathlib

/-!
# Verification of the balance-aware plan sizing and normalization engine

Shallow embedding of the sizing / sanitization core of the
`goblin-solana-agent` repository, namely:

* `planner/exec_ready_planner.py` — `decide_size`, `_safe_int`, `_safe_float`,
  `_prepare_options`, and the wallet-balance derivation inside
  `build_exec_ready_plan`;
* `planner/llm_planner.py` — `_coerce_str_amount`, `_to_float_amount`,
  `_clamp_amount_to_budget_and_cap`, `_sanitize_actions`, `_as_option_dict`,
  and the default-option selection / root-`actions` assembly inside
  `generate_plan`.

Python floats are modelled as exact rationals (`ℚ`) and Python ints as `ℤ`;
the claims under study are order/value claims about the algorithm, which the
exact model captures (binary floating-point round-off is out of scope; every
concrete input evaluated below is exactly representable at the precision the
code manipulates).  Python `None`-able values are modelled with `Option`; a
value that may be a number, a string or `None` is modelled by `PyVal`.
Presentational fields that carry no logic (`why`, `risk`, `timestamp`,
`chain`, `tradeoffs`) are omitted from the records: no control flow of the
embedded functions depends on them (`timestamp` is wall-clock data).
-/

namespace Goblin

/-- A loosely-typed Python value as it appears in `params` / `wallet_state`
slots: a number (int or float, modelled exactly as a rational), a string, or
`None` / missing. -/
inductive PyVal where
  | num (q : ℚ)
  | str (s : String)
  | none_
deriving DecidableEq, Repr

/-- Python `int(x)` on a number truncates toward zero. -/
def intTrunc (q : ℚ) : ℤ := if 0 ≤ q then ⌊q⌋ else ⌈q⌉

/-- Python `str.strip()`: drop leading and trailing whitespace. -/
def pyStrip (s : String) : String :=
  ⟨((s.data.dropWhile Char.isWhitespace).reverse.dropWhile
      Char.isWhitespace).reverse⟩

/-- ASCII lowering, modelling Python `str.lower()` on the ASCII verbs and
option names used here. -/
def pyLower (s : String) : String := ⟨s.data.map Char.toLower⟩

/-- ASCII uppering, modelling Python `str.upper()`. -/
def pyUpper (s : String) : String := ⟨s.data.map Char.toUpper⟩

/-- Parse an optionally signed decimal literal (digits with at most one dot),
modelling the inputs Python's `float(str)` accepts in this code base
(exponent forms and `inf`/`nan` never occur in the embedded call sites). -/
def parseDec? (s : String) : Option ℚ :=
  let l := s.data
  let sign : ℚ := if l.head? = some '-' then -1 else 1
  let l := if l.head? = some '-' ∨ l.head? = some '+' then l.tail else l
  let ds := l.takeWhile Char.isDigit
  let rest := l.dropWhile Char.isDigit
  let ipart : ℕ := ds.foldl (fun n c => 10 * n + (c.toNat - '0'.toNat)) 0
  match rest with
  | [] => if ds.isEmpty then none else some (sign * ipart)
  | '.' :: frac =>
      if frac.all Char.isDigit ∧ ¬(ds.isEmpty ∧ frac.isEmpty) then
        let fpart : ℕ := frac.foldl (fun n c => 10 * n + (c.toNat - '0'.toNat)) 0
        some (sign * (ipart + (fpart : ℚ) / (10 : ℚ) ^ frac.length))
      else none
  | _ => none

/-- Parse an optionally signed integer literal, modelling Python `int(str)`
(which rejects a decimal point). -/
def parseInt? (s : String) : Option ℤ :=
  let l := s.data
  let sign : ℤ := if l.head? = some '-' then -1 else 1
  let l := if l.head? = some '-' ∨ l.head? = some '+' then l.tail else l
  if l.isEmpty ∨ ¬ l.all Char.isDigit then none
  else some (sign * (l.foldl (fun n c => 10 * n + (c.toNat - '0'.toNat)) 0 : ℕ))

/-! ## Constants of `planner/exec_ready_planner.py` -/

def LAMPORTS_PER_SOL : ℤ := 1000000000
def FEE_BUFFER_LAMPORTS : ℤ := 500000
def TIP_LAMPORTS : ℤ := 100000
def RENT_ATA_LAMPORTS : ℤ := 2100000
def HARD_CAP_SOL : ℚ := 1/4
def BUFFERS_LAMPORTS : ℤ := FEE_BUFFER_LAMPORTS + TIP_LAMPORTS + RENT_ATA_LAMPORTS

/-- Value of `int(HARD_CAP_SOL * LAMPORTS_PER_SOL)` as computed inside `decide_size`. -/
def hardCapLamports : ℤ := intTrunc (HARD_CAP_SOL * (LAMPORTS_PER_SOL : ℚ))

/-! ## `decide_size` -/

/-- Python `decide_size(balance_lamports, desired_lamports)`:
clamp a desired allocation against buffers, wallet balance, and the hard cap.

```python
buffers = BUFFERS_LAMPORTS
affordable = max(0, balance_lamports - buffers)
hard_cap = int(HARD_CAP_SOL * LAMPORTS_PER_SOL)
return max(0, min(int(desired_lamports), affordable, hard_cap))
``` -/
def decide_size (balance_lamports desired_lamports : ℤ) : ℤ :=
  max 0 (min desired_lamports
    (min (max 0 (balance_lamports - BUFFERS_LAMPORTS)) hardCapLamports))

lemma hardCapLamports_eq : hardCapLamports = 250000000 := by
  norm_num [hardCapLamports, intTrunc, HARD_CAP_SOL, LAMPORTS_PER_SOL]

lemma buffers_eq : BUFFERS_LAMPORTS = 2700000 := by
  norm_num [BUFFERS_LAMPORTS, FEE_BUFFER_LAMPORTS, TIP_LAMPORTS,
    RENT_ATA_LAMPORTS]

/-! ## `_safe_int`, `_safe_float` and the wallet-balance derivation -/

/-- Python `_safe_int(value, default=0)`.  Python first tries `int(value)` (numbers
truncate toward zero; strings must be integer literals), then
`int(float(str(value).strip()))`, then returns the default.  Booleans return
the default; they are not modelled by `PyVal` (no embedded call site passes
one). -/
def _safe_int (value : Option PyVal) (default : ℤ) : ℤ :=
  match value with
  | Option.none => default        -- int(None) raises; float("None") raises
  | some (PyVal.num q) => intTrunc q
  | some (PyVal.str s) =>
      match parseInt? (pyStrip s) with
      | some n => n
      | Option.none =>
          match parseDec? (pyStrip s) with
          | some q => intTrunc q
          | Option.none => default
  | some PyVal.none_ => default

/-- Python `_safe_float(value, default=0.0)`. -/
def _safe_float (value : Option PyVal) (default : ℚ) : ℚ :=
  match value with
  | Option.none => default
  | some (PyVal.num q) => q
  | some (PyVal.str s) => (parseDec? (pyStrip s)).getD default
  | some PyVal.none_ => default

/-- The `wallet_state` mapping consumed by `build_exec_ready_plan`: the two
keys it reads, each possibly absent.  `Option.none` at the outer level models
both a `None` wallet state and an empty (falsy) dict. -/
structure WalletState where
  lamports : Option PyVal
  sol_balance : Option PyVal
deriving DecidableEq, Repr

/-- The wallet-balance derivation at the top of `build_exec_ready_plan`:

```python
balance_lamports = 0
if wallet_state:
    balance_lamports = _safe_int(wallet_state.get("lamports"))
    if not balance_lamports:
        sol_balance = _safe_float(wallet_state.get("sol_balance"))
        balance_lamports = int(sol_balance * LAMPORTS_PER_SOL)
``` -/
def balanceLamports (wallet_state : Option WalletState) : ℤ :=
  match wallet_state with
  | Option.none => 0
  | some w =>
      if _safe_int w.lamports 0 ≠ 0 then _safe_int w.lamports 0
      else intTrunc (_safe_float w.sol_balance 0 * (LAMPORTS_PER_SOL : ℚ))

/-- Value of `sizing["final_sol"] = final_lamports / LAMPORTS_PER_SOL` for the size
decided from a balance and a desired amount. -/
def finalSol (balance_lamports desired_lamports : ℤ) : ℚ :=
  (decide_size balance_lamports desired_lamports : ℚ) / (LAMPORTS_PER_SOL : ℚ)

/-! ## Claim theorems C1, C2, C9, C10 -/

/-- C1: for every `balance_lamports ≥ 0` and `desired_lamports ≥ 0`,
`decide_size` returns `max(0, min(desired, balance - buffers, hard_cap))`;
in particular the result is ≤ the hard cap, ≤ `max(0, balance - buffer)`,
≤ `desired`, never negative, and it is 0 when the balance is below the
buffer or the desired amount is 0. -/
theorem decide_size_spec (b d : ℤ) (hb : 0 ≤ b) (hd : 0 ≤ d) :
    decide_size b d = max 0 (min d (min (b - BUFFERS_LAMPORTS) hardCapLamports)) ∧
    decide_size b d ≤ hardCapLamports ∧
    decide_size b d ≤ max 0 (b - BUFFERS_LAMPORTS) ∧
    decide_size b d ≤ d ∧
    0 ≤ decide_size b d ∧
    (b < BUFFERS_LAMPORTS → decide_size b d = 0) ∧
    (d = 0 → decide_size b d = 0) := by
  unfold decide_size
  rw [hardCapLamports_eq, buffers_eq] at *
  omega

/-- Witness for C1 at `balance = 3 SOL`, `desired = 0.5 SOL` (in lamports). -/
theorem decide_size_spec_witness :
    decide_size 3000000000 500000000 ≤ hardCapLamports :=
  (decide_size_spec 3000000000 500000000 (by norm_num) (by norm_num)).2.1

/-- C9: `decide_size` is monotone in the balance (for fixed desired) and
in the desired amount (for fixed balance). -/
theorem decide_size_monotone (b₁ b₂ d₁ d₂ : ℤ) :
    (b₁ ≤ b₂ → decide_size b₁ d₁ ≤ decide_size b₂ d₁) ∧
    (d₁ ≤ d₂ → decide_size b₁ d₁ ≤ decide_size b₁ d₂) := by
  unfold decide_size
  omega

/-- Witness for C9 at concrete balances/desireds. -/
theorem decide_size_monotone_witness :
    decide_size 100000000 250000000 ≤ decide_size 5000000000 250000000 :=
  (decide_size_monotone 100000000 5000000000 250000000 250000000).1 (by norm_num)

lemma decide_size_tenth : decide_size 100000000 250000000 = 97300000 := by
  unfold decide_size
  rw [hardCapLamports_eq, buffers_eq]
  norm_num

lemma balance_tenth :
    balanceLamports (some ⟨Option.none, some (PyVal.num (1/10))⟩) = 100000000 := by
  simp only [balanceLamports, _safe_int, _safe_float]
  norm_num [intTrunc, LAMPORTS_PER_SOL]

/-- C2 (counterexample): with a wallet balance of 0.1 SOL and a desired
amount of 0.25 SOL, `decide_size` yields 97,300,000 lamports, i.e.
`final_sol = 0.0973`, not the claimed `0.1 - 0.003 = 0.097`: `decide_size`
subtracts `BUFFERS_LAMPORTS` (0.0027 SOL), not the policy's
`min_fee_buffer_sol` (0.003 SOL). -/
theorem final_sol_tenth_balance_ne_097 :
    balanceLamports (some ⟨Option.none, some (PyVal.num (1/10))⟩) = 100000000 ∧
    decide_size 100000000 250000000 = 97300000 ∧
    finalSol 100000000 250000000 ≠ 97/1000 := by
  refine ⟨balance_tenth, decide_size_tenth, ?_⟩
  unfold finalSol
  rw [decide_size_tenth]
  norm_num [LAMPORTS_PER_SOL]

/-- C2 (amended): with the wallet balance 0.1 SOL derived from
`wallet_state = {"sol_balance": 0.1}` and desired 0.25 SOL, the sizing yields
`final_lamports = balance - BUFFERS_LAMPORTS = 97300000`, i.e.
`final_sol = 0.0973` exactly — capped by affordability (balance minus the
0.0027 SOL lamport buffers), not by the hard cap. -/
theorem final_sol_tenth_balance_amended :
    balanceLamports (some ⟨Option.none, some (PyVal.num (1/10))⟩) = 100000000 ∧
    decide_size 100000000 250000000 = 100000000 - BUFFERS_LAMPORTS ∧
    decide_size 100000000 250000000 < hardCapLamports ∧
    finalSol 100000000 250000000 = 973/10000 := by
  refine ⟨balance_tenth, ?_, ?_, ?_⟩
  · rw [decide_size_tenth, buffers_eq]; norm_num
  · rw [decide_size_tenth, hardCapLamports_eq]; norm_num
  · unfold finalSol
    rw [decide_size_tenth]
    norm_num [LAMPORTS_PER_SOL]

/-- C10: the wallet balance used by `build_exec_ready_plan` is the
`lamports` field exactly when it coerces to a nonzero integer; otherwise it
falls back to `sol_balance * 1_000_000_000`; an absent wallet state gives 0;
and `{"lamports": 0, "sol_balance": 5}` gives a 5 SOL balance. -/
theorem balanceLamports_spec (w : WalletState) :
    balanceLamports Option.none = 0 ∧
    (_safe_int w.lamports 0 ≠ 0 →
      balanceLamports (some w) = _safe_int w.lamports 0) ∧
    (_safe_int w.lamports 0 = 0 →
      balanceLamports (some w) =
        intTrunc (_safe_float w.sol_balance 0 * (LAMPORTS_PER_SOL : ℚ))) ∧
    balanceLamports (some ⟨some (PyVal.num 0), some (PyVal.num 5)⟩) =
      5000000000 := by
  refine ⟨rfl, ?_, ?_, ?_⟩
  · intro h; simp [balanceLamports, h]
  · intro h; simp [balanceLamports, h]
  · simp only [balanceLamports, _safe_int, _safe_float]
    norm_num [intTrunc, LAMPORTS_PER_SOL]

/-- Witness for C10: a wallet state with unparsable `lamports` falls back to
`sol_balance`. -/
theorem balanceLamports_spec_witness :
    balanceLamports (some ⟨some (PyVal.str "oops"), some (PyVal.num 2)⟩) =
      intTrunc (_safe_float (some (PyVal.num 2)) 0 * (LAMPORTS_PER_SOL : ℚ)) :=
  (balanceLamports_spec ⟨some (PyVal.str "oops"), some (PyVal.num 2)⟩).2.2.1
    (by decide)

/-! ## Amount coercion (`planner/llm_planner.py`) -/

/-- Python `str.rstrip(c)`: strip trailing copies of one character. -/
def rstripChar (c : Char) (s : String) : String :=
  ⟨(s.data.reverse.dropWhile (· = c)).reverse⟩

/-- Left-pad a digit string with zeros to 9 digits. -/
def pad9 (s : String) : String := ⟨List.replicate (9 - s.length) '0'⟩ ++ s

/-- Python `f"{x:.9f}"`: fixed-point with 9 fractional digits, here rounding
half-up on the exact rational (Python rounds the binary double to nearest;
the two agree on every value arising in this development, whose decimal
expansion terminates within 9 digits so no rounding occurs at all). -/
def fmt9 (q : ℚ) : String :=
  let sign := if q < 0 then "-" else ""
  let m : ℕ := (⌊|q| * 1000000000 + 1/2⌋).toNat
  sign ++ toString (m / 1000000000) ++ "." ++ pad9 (toString (m % 1000000000))

/-- Full match of the regular expression `[0-9]*\.?[0-9]+` used by
`_coerce_str_amount`: optional leading digits, an optional single dot, then
at least one digit; no sign admitted. -/
def matchesAmountRe (s : String) : Bool :=
  let l := s.data
  match l.dropWhile Char.isDigit with
  | [] => !l.isEmpty
  | '.' :: frac => !frac.isEmpty && frac.all Char.isDigit
  | _ => false

/-- Python `_coerce_str_amount(v, default="0.10")`:

```python
try:
    if isinstance(v, (int, float)):
        return f"{float(v):.9f}".rstrip("0").rstrip(".")
    s = str(v).strip()
    if re.fullmatch(r"[0-9]*\.?[0-9]+", s):
        return s
except Exception:
    pass
return default
```

`str(None) = "None"` never matches the expression, so `None` yields the
default. -/
def _coerce_str_amount (v : PyVal) (default : String) : String :=
  match v with
  | PyVal.num q => rstripChar '.' (rstripChar '0' (fmt9 q))
  | PyVal.str s =>
      let s := pyStrip s
      if matchesAmountRe s then s else default
  | PyVal.none_ => default

/-- Python `_to_float_amount(v, fallback=0.0)`: `float(v)`, falling back to
`float(str(v).strip())`, falling back to `fallback`. -/
def _to_float_amount (v : PyVal) (fallback : ℚ) : ℚ :=
  match v with
  | PyVal.num q => q
  | PyVal.str s => (parseDec? (pyStrip s)).getD fallback
  | PyVal.none_ => fallback

/-- The numeric core of `_clamp_amount_to_budget_and_cap`: the clamped
`final` amount and the updated remaining budget.

```python
requested = max(0.0, _to_float_amount(amount_str, fallback=0.0))
if requested <= 0.0:
    requested = max(0.0, default_if_zero)
allowed = min(per_action_cap, remaining_budget)
final = max(0.0, min(requested, allowed))
new_remaining = max(0.0, remaining_budget - final)
``` -/
def clampAmountNum (amount_str : PyVal)
    (remaining_budget per_action_cap default_if_zero : ℚ) : ℚ × ℚ :=
  let requested := max 0 (_to_float_amount amount_str 0)
  let requested := if requested ≤ 0 then max 0 default_if_zero else requested
  let allowed := min per_action_cap remaining_budget
  let final := max 0 (min requested allowed)
  (final, max 0 (remaining_budget - final))

/-- Python `_clamp_amount_to_budget_and_cap(amount_str, remaining_budget,
per_action_cap, default_if_zero) -> (str, float)`: the string written back
into `params["amount"]` and the new remaining budget. -/
def _clamp_amount_to_budget_and_cap (amount_str : PyVal)
    (remaining_budget per_action_cap default_if_zero : ℚ) : String × ℚ :=
  let r := clampAmountNum amount_str remaining_budget per_action_cap default_if_zero
  (_coerce_str_amount (PyVal.num r.1)
      (_coerce_str_amount (PyVal.num default_if_zero) "0.10"),
   r.2)

/-! ### Local clamp lemmas (shared by several claims) -/

lemma clampAmountNum_fst_eq (v : PyVal) (r c d : ℚ) :
    (clampAmountNum v r c d).1 =
      max 0 (min (if max 0 (_to_float_amount v 0) ≤ 0 then max 0 d
                  else max 0 (_to_float_amount v 0)) (min c r)) := rfl

lemma clampAmountNum_fst_nonneg (v : PyVal) (r c d : ℚ) :
    0 ≤ (clampAmountNum v r c d).1 := by
  rw [clampAmountNum_fst_eq]; exact le_max_left _ _

lemma clampAmountNum_fst_le_min (v : PyVal) (r c d : ℚ)
    (hr : 0 ≤ r) (hc : 0 ≤ c) :
    (clampAmountNum v r c d).1 ≤ min c r := by
  rw [clampAmountNum_fst_eq]
  exact max_le (le_min hc hr) (min_le_right _ _)

lemma clampAmountNum_snd_eq (v : PyVal) (r c d : ℚ)
    (hr : 0 ≤ r) (hc : 0 ≤ c) :
    (clampAmountNum v r c d).2 = r - (clampAmountNum v r c d).1 := by
  have h : (clampAmountNum v r c d).1 ≤ r :=
    le_trans (clampAmountNum_fst_le_min v r c d hr hc) (min_le_right _ _)
  show max 0 (r - (clampAmountNum v r c d).1) = _
  exact max_eq_right (by linarith)

lemma clampAmountNum_default (v : PyVal) (r c d : ℚ)
    (h : _to_float_amount v 0 ≤ 0) :
    (clampAmountNum v r c d).1 = max 0 (min (max 0 d) (min c r)) := by
  rw [clampAmountNum_fst_eq, if_pos (by simpa using h)]

/-! ## `_sanitize_actions` -/

/-- The `params` mapping of an action, restricted to the keys the sanitizer
reads: `amount`, presence of `in` and `out` (only presence is tested), and
`protocol`. -/
structure Params where
  amount : PyVal
  hasIn : Bool
  hasOut : Bool
  protocol : Option String
deriving DecidableEq, Repr

/-- A raw (planner-proposed) action as read by `_sanitize_actions`:
`a.get("verb")`, `a.get("params")`, and an optional explicit
`requires_approval`. -/
structure RawAction where
  verb : Option String
  params : Params
  requiresApproval : Option Bool
deriving DecidableEq, Repr

/-- A sanitized output action (presentational fields omitted, cf. header). -/
structure SanAction where
  verb : String
  params : Params
  requiresApproval : Bool
deriving DecidableEq, Repr

def ALLOWED_VERBS : List String := ["balance", "quote", "swap", "stake", "unstake"]

/-- The verbs whose `amount` gets budget-clamped by the sanitizer. -/
def MONETARY_VERBS : List String := ["quote", "swap", "stake", "unstake"]

/-- Python `(a.get("verb") or "").lower().strip()`. -/
def normVerb (v : Option String) : String := pyStrip (pyLower (v.getD ""))

/-- Python `auto_micro_sol or 0.05`: the effective default micro amount. -/
def effMicro (auto_micro_sol : Option ℚ) : ℚ :=
  match auto_micro_sol with
  | some m => if m = 0 then 1/20 else m
  | Option.none => 1/20

/-- One iteration of the `_sanitize_actions` loop over a whitelisted action
(verb already normalized and checked): budget clamping, the `in`/`out`
presence check that drops malformed `quote`/`swap`, the amount re-coercion,
and the `protocol` default for `stake`/`unstake`.  Returns the emitted
action (`none` when dropped) and the updated remaining budget.  The budget
is consumed *before* the `in`/`out` check, so a dropped malformed
`quote`/`swap` still decrements the budget — mirroring the statement order
of the source. -/
def sanitizeStep (v : String) (a : RawAction)
    (remaining cap : Option ℚ) (micro : ℚ) :
    Option SanAction × Option ℚ :=
  let pr : Params × Option ℚ :=
    match remaining, cap with
    | some r, some c =>
        if v ∈ MONETARY_VERBS then
          let sr := _clamp_amount_to_budget_and_cap a.params.amount r c micro
          ({ a.params with amount := PyVal.str sr.1 }, some sr.2)
        else (a.params, some r)
    | r, _ => (a.params, r)
  let params := pr.1
  if (v = "quote" ∨ v = "swap") ∧ ¬(params.hasIn = true ∧ params.hasOut = true) then
    (Option.none, pr.2)
  else
    let params :=
      if v = "quote" ∨ v = "swap" ∨ v = "stake" ∨ v = "unstake" then
        { params with amount := PyVal.str (_coerce_str_amount params.amount
            (_coerce_str_amount (PyVal.num micro) "0.10")) }
      else params
    let params :=
      if (v = "stake" ∨ v = "unstake") ∧ params.protocol = Option.none then
        { params with protocol := some "jito" }
      else params
    (some { verb := v, params := params,
            requiresApproval := a.requiresApproval.getD
              (v = "swap" ∨ v = "stake" ∨ v = "unstake") },
     pr.2)

/-- The main loop of `_sanitize_actions`: iterate over the input, skip
non-whitelisted verbs, process survivors with `sanitizeStep`, and break as
soon as `max_actions` survivors have been emitted. -/
def sanitizeLoop (actions : List RawAction) (remaining cap : Option ℚ)
    (micro : ℚ) (max_actions : ℕ) (out : List SanAction) : List SanAction :=
  match actions with
  | [] => out
  | a :: rest =>
      let v := normVerb a.verb
      if v ∈ ALLOWED_VERBS then
        match sanitizeStep v a remaining cap micro with
        | (some sa, remaining') =>
            let out' := out ++ [sa]
            if max_actions ≤ out'.length then out'
            else sanitizeLoop rest remaining' cap micro max_actions out'
        | (Option.none, remaining') =>
            sanitizeLoop rest remaining' cap micro max_actions out
      else sanitizeLoop rest remaining cap micro max_actions out

/-- The synthesized leading balance check inserted when no `balance` verb
survived sanitization. -/
def balanceSanAction : SanAction :=
  { verb := "balance", params := ⟨PyVal.none_, false, false, Option.none⟩,
    requiresApproval := false }

/-- First index of an element satisfying `p`, modelling Python
`list.index` over the verbs list. -/
def firstIdx? (p : α → Bool) : List α → Option ℕ
  | [] => Option.none
  | a :: l => if p a then some 0 else (firstIdx? p l).map (· + 1)

/-- Python `list.pop(i)` (the remaining list). -/
def removeAt : ℕ → List α → List α
  | _, [] => []
  | 0, _ :: l => l
  | n+1, a :: l => a :: removeAt n l

/-- Python `list.insert(i, x)`. -/
def insertAt : ℕ → α → List α → List α
  | 0, x, l => x :: l
  | _+1, x, [] => [x]
  | n+1, x, a :: l => a :: insertAt n x l

/-- The quote-before-swap reordering at the end of `_sanitize_actions`: if
the first `quote` occurs after the first `swap`, pop it and re-insert it at
the `swap`'s index. -/
def reorderQuoteSwap (out : List SanAction) : List SanAction :=
  match firstIdx? (fun x => x.verb == "swap") out,
        firstIdx? (fun x => x.verb == "quote") out with
  | some si, some qi =>
      if si < qi then
        match out.get? qi with
        | some q => insertAt si q (removeAt qi out)
        | Option.none => out
      else out
  | _, _ => out

/-- Python `_sanitize_actions(actions, chain, max_actions,
remaining_budget_sol, per_action_cap_sol, auto_micro_sol)`.  The `chain`
string only tags output records and is omitted (cf. header). -/
def _sanitize_actions (actions : List RawAction) (max_actions : ℕ)
    (remaining_budget_sol per_action_cap_sol auto_micro_sol : Option ℚ) :
    List SanAction :=
  let micro := effMicro auto_micro_sol
  let out := sanitizeLoop actions remaining_budget_sol per_action_cap_sol
    micro max_actions []
  let out := if out.all (fun x => x.verb != "balance")
    then balanceSanAction :: out else out
  (reorderQuoteSwap out).take max_actions

/-- Specification-side trace of the numeric clamped amounts produced by the
`_sanitize_actions` loop when both a remaining budget and a per-action cap
are supplied.  It mirrors `sanitizeLoop`'s control flow exactly (whitelist,
clamp-before-`in`/`out`-check, early break at `max_actions`, with `count`
playing the role of `len(out)`) and records the numeric `final` of every
clamp whose action is emitted into the output. -/
def clampTrace : List RawAction → ℚ → ℚ → ℚ → ℕ → ℕ → List ℚ
  | [], _, _, _, _, _ => []
  | a :: rest, r, c, micro, maxA, count =>
      let v := normVerb a.verb
      if v ∈ ALLOWED_VERBS then
        if v ∈ MONETARY_VERBS then
          let fr := clampAmountNum a.params.amount r c micro
          if (v = "quote" ∨ v = "swap") ∧
              ¬(a.params.hasIn = true ∧ a.params.hasOut = true) then
            clampTrace rest fr.2 c micro maxA count
          else if maxA ≤ count + 1 then [fr.1]
          else fr.1 :: clampTrace rest fr.2 c micro maxA (count + 1)
        else if maxA ≤ count + 1 then []
        else clampTrace rest r c micro maxA (count + 1)
      else clampTrace rest r c micro maxA count

lemma clampAmountNum_snd_nonneg (v : PyVal) (r c d : ℚ) :
    0 ≤ (clampAmountNum v r c d).2 :=
  le_max_left _ _

lemma clampAmountNum_snd_le (v : PyVal) (r c d : ℚ) (hr : 0 ≤ r) (hc : 0 ≤ c) :
    (clampAmountNum v r c d).2 ≤ r := by
  rw [clampAmountNum_snd_eq v r c d hr hc]
  have := clampAmountNum_fst_nonneg v r c d
  linarith

lemma clampTrace_sum_le (acts : List RawAction) (B C d : ℚ) (maxA cnt : ℕ)
    (hB : 0 ≤ B) (hC : 0 ≤ C) :
    (clampTrace acts B C d maxA cnt).sum ≤ B := by
  induction acts generalizing B cnt with
  | nil => simpa [clampTrace] using hB
  | cons a rest ih =>
      simp only [clampTrace]
      split_ifs with h1 h2 h3 h4 h5
      · -- monetary, dropped malformed quote/swap: budget still consumed
        have h0 := clampAmountNum_snd_nonneg a.params.amount B C d
        have hle := clampAmountNum_snd_le a.params.amount B C d hB hC
        exact le_trans (ih _ _ h0) hle
      · -- monetary, emitted, loop breaks
        simpa using le_trans (clampAmountNum_fst_le_min a.params.amount B C d hB hC)
          (min_le_right _ _)
      · -- monetary, emitted, loop continues
        have h0 := clampAmountNum_snd_nonneg a.params.amount B C d
        have hsum := ih ((clampAmountNum a.params.amount B C d).2) (cnt + 1) h0
        have heq := clampAmountNum_snd_eq a.params.amount B C d hB hC
        simp only [List.sum_cons]
        rw [heq] at hsum ⊢
        linarith
      · -- balance verb, loop breaks
        simpa using hB
      · -- balance verb, loop continues
        exact ih B (cnt + 1) hB
      · -- verb not whitelisted
        exact ih B cnt hB

lemma clampTrace_nonneg (acts : List RawAction) (B C d : ℚ) (maxA cnt : ℕ) :
    ∀ f ∈ clampTrace acts B C d maxA cnt, 0 ≤ f := by
  induction acts generalizing B cnt with
  | nil => simp [clampTrace]
  | cons a rest ih =>
      simp only [clampTrace]
      split_ifs with h1 h2 h3 h4 h5
      · exact ih _ _
      · simpa using clampAmountNum_fst_nonneg a.params.amount B C d
      · intro f hf
        rcases List.mem_cons.mp hf with h | h
        · exact h ▸ clampAmountNum_fst_nonneg a.params.amount B C d
        · exact ih _ _ f h
      · simp
      · exact ih _ _
      · exact ih _ _

/-- C3: with a remaining budget `B ≥ 0` and a per-action cap `C ≥ 0`,
sanitization clamps sequentially: every clamp produces a non-negative final
amount bounded by `min(C, r)` for the budget `r` remaining at that point,
substitutes the default when the requested amount is non-positive, and
decrements the remaining budget by exactly the clamped amount; consequently
the clamped monetary amounts emitted into the output sum to at most `B`. -/
theorem sanitize_budget_clamping (acts : List RawAction) (B C d : ℚ)
    (maxA cnt : ℕ) (hB : 0 ≤ B) (hC : 0 ≤ C) :
    (∀ (v : PyVal) (r : ℚ), 0 ≤ r →
        0 ≤ (clampAmountNum v r C d).1 ∧
        (clampAmountNum v r C d).1 ≤ min C r ∧
        (clampAmountNum v r C d).2 = r - (clampAmountNum v r C d).1 ∧
        (_to_float_amount v 0 ≤ 0 →
          (clampAmountNum v r C d).1 = max 0 (min (max 0 d) (min C r)))) ∧
    (∀ f ∈ clampTrace acts B C d maxA cnt, 0 ≤ f) ∧
    (clampTrace acts B C d maxA cnt).sum ≤ B := by
  refine ⟨fun v r hr => ⟨clampAmountNum_fst_nonneg v r C d,
      clampAmountNum_fst_le_min v r C d hr hC,
      clampAmountNum_snd_eq v r C d hr hC,
      fun h => clampAmountNum_default v r C d h⟩,
    clampTrace_nonneg acts B C d maxA cnt,
    clampTrace_sum_le acts B C d maxA cnt hB hC⟩

/-- A stake action requesting 0.04 SOL (the spec's budget-exhaustion
scenario). -/
def stakeAction04 : RawAction :=
  ⟨some "stake", ⟨PyVal.num (1/25), false, false, Option.none⟩, Option.none⟩

/-- Witness for C3: the spec scenario — budget 0.05, two actions requesting
0.04 each — sums within budget. -/
theorem sanitize_budget_clamping_witness :
    (clampTrace [stakeAction04, stakeAction04] (1/20) (1/4) (1/20) 3 0).sum
      ≤ 1/20 :=
  (sanitize_budget_clamping [stakeAction04, stakeAction04] (1/20) (1/4)
    (1/20) 3 0 (by norm_num) (by norm_num)).2.2

/-- Concrete evaluation of the spec's budget-exhaustion scenario: the first
action is clamped to its requested 0.04, the second to the remaining 0.01. -/
lemma clampTrace_exhaustion_eval :
    clampTrace [stakeAction04, stakeAction04] (1/20) (1/4) (1/20) 3 0
      = [1/25, 1/100] := by
  have hv : normVerb (some "stake") = "stake" := by decide
  norm_num [clampTrace, clampAmountNum, _to_float_amount, stakeAction04, hv,
    ALLOWED_VERBS, MONETARY_VERBS]
  simp only [if_neg (show ¬("stake" = "quote" ∨ "stake" = "swap") by decide)]

/-! ## Structural lemmas about `_sanitize_actions` (claims C4, C5) -/

lemma sanitizeStep_verb (v : String) (a : RawAction) (r c : Option ℚ) (m : ℚ)
    (sa : SanAction) (r' : Option ℚ)
    (h : sanitizeStep v a r c m = (some sa, r')) : sa.verb = v := by
  simp only [sanitizeStep] at h
  split_ifs at h
  all_goals
    rw [Prod.ext_iff] at h
    obtain ⟨h2, -⟩ := h
    first
      | exact Option.noConfusion h2
      | (injection h2 with h3
         subst h3
         rfl)

lemma sanitizeStep_some_of_not_qs (v : String) (a : RawAction)
    (r c : Option ℚ) (m : ℚ) (hv : ¬(v = "quote" ∨ v = "swap")) :
    ∃ sa : SanAction, (sanitizeStep v a r c m).1 = some sa ∧ sa.verb = v := by
  simp only [sanitizeStep]
  rw [if_neg (fun hc => hv hc.1)]
  exact ⟨_, rfl, rfl⟩

lemma sanitizeLoop_append (acts : List RawAction) (r c : Option ℚ) (m : ℚ)
    (maxA : ℕ) (out : List SanAction) :
    ∃ t, sanitizeLoop acts r c m maxA out = out ++ t ∧
      ∀ x ∈ t, ∃ a ∈ acts, x.verb = normVerb a.verb := by
  induction acts generalizing r out with
  | nil => exact ⟨[], by simp [sanitizeLoop]⟩
  | cons a rest ih =>
      simp only [sanitizeLoop]
      by_cases hA : normVerb a.verb ∈ ALLOWED_VERBS
      · rw [if_pos hA]
        rcases hstep : sanitizeStep (normVerb a.verb) a r c m with ⟨osa, r₂⟩
        cases osa with
        | some sa =>
            have hv : sa.verb = normVerb a.verb :=
              sanitizeStep_verb _ _ _ _ _ _ _ hstep
            by_cases hlen : maxA ≤ (out ++ [sa]).length
            · refine ⟨[sa], ?_, ?_⟩
              · simp only [hstep]
                rw [if_pos hlen]
              · intro x hx
                rw [List.mem_singleton] at hx
                exact ⟨a, List.mem_cons_self a rest, hx ▸ hv⟩
            · obtain ⟨t, ht, hmem⟩ := ih r₂ (out ++ [sa])
              refine ⟨sa :: t, ?_, ?_⟩
              · simp only [hstep]
                rw [if_neg hlen, ht]
                simp
              · intro x hx
                rcases List.mem_cons.mp hx with hx | hx
                · exact ⟨a, List.mem_cons_self a rest, hx ▸ hv⟩
                · obtain ⟨b, hb, hxb⟩ := hmem x hx
                  exact ⟨b, List.mem_cons_of_mem a hb, hxb⟩
        | none =>
            obtain ⟨t, ht, hmem⟩ := ih r₂ out
            refine ⟨t, ?_, fun x hx => ?_⟩
            · simp only [hstep]
              exact ht
            · obtain ⟨b, hb, hxb⟩ := hmem x hx
              exact ⟨b, List.mem_cons_of_mem a hb, hxb⟩
      · rw [if_neg hA]
        obtain ⟨t, ht, hmem⟩ := ih r out
        refine ⟨t, ht, fun x hx => ?_⟩
        obtain ⟨b, hb, hxb⟩ := hmem x hx
        exact ⟨b, List.mem_cons_of_mem a hb, hxb⟩

lemma reorderQuoteSwap_head_cons (x : SanAction) (l : List SanAction)
    (hs : (x.verb == "swap") = false) (hq : (x.verb == "quote") = false) :
    ∃ l', reorderQuoteSwap (x :: l) = x :: l' := by
  unfold reorderQuoteSwap
  simp only [firstIdx?, hs, hq, Bool.false_eq_true, if_false]
  cases hswap : (firstIdx? (fun y => y.verb == "swap") l).map (· + 1) with
  | none => exact ⟨l, rfl⟩
  | some si =>
      cases hquote : (firstIdx? (fun y => y.verb == "quote") l).map (· + 1) with
      | none => exact ⟨l, rfl⟩
      | some qi =>
          rcases Option.map_eq_some'.mp hswap with ⟨si₀, -, hsi⟩
          rcases Option.map_eq_some'.mp hquote with ⟨qi₀, -, hqi⟩
          subst hsi hqi
          dsimp only
          by_cases hlt : si₀ + 1 < qi₀ + 1
          · rw [if_pos hlt]
            cases hget : (x :: l).get? (qi₀ + 1) with
            | none => exact ⟨l, rfl⟩
            | some q =>
                refine ⟨insertAt si₀ q (removeAt qi₀ l), ?_⟩
                have h1 : removeAt (qi₀ + 1) (x :: l) = x :: removeAt qi₀ l := rfl
                have h2 : insertAt (si₀ + 1) q (x :: removeAt qi₀ l)
                    = x :: insertAt si₀ q (removeAt qi₀ l) := rfl
                rw [h1]
                dsimp only
                rw [h2]
          · rw [if_neg hlt]
            exact ⟨l, rfl⟩

lemma take_head_cons (x : SanAction) (l : List SanAction) (maxA : ℕ)
    (hmax : 1 ≤ maxA) :
    ((x :: l).take maxA).head?.map (fun y => y.verb) = some x.verb := by
  cases maxA with
  | zero => omega
  | succ n => simp

lemma postprocess_head_balance (out : List SanAction) (maxA : ℕ)
    (hmax : 1 ≤ maxA)
    (h : out = [] ∨ ∃ x t, out = x :: t ∧ x.verb = "balance") :
    ((reorderQuoteSwap (if out.all (fun y => y.verb != "balance")
        then balanceSanAction :: out else out)).take maxA).head?.map
      (fun y => y.verb) = some "balance" := by
  rcases h with h | ⟨x, t, rfl, hx⟩
  · subst h
    rw [if_pos (by simp)]
    obtain ⟨l', hl'⟩ := reorderQuoteSwap_head_cons balanceSanAction []
      (by decide) (by decide)
    rw [hl']
    exact take_head_cons _ _ _ hmax
  · rw [if_neg (by simp [hx])]
    obtain ⟨l', hl'⟩ := reorderQuoteSwap_head_cons x t
      (by simp [hx]) (by simp [hx])
    rw [hl', take_head_cons _ _ _ hmax, hx]

lemma postprocess_head_balance_inject (out : List SanAction) (maxA : ℕ)
    (hmax : 1 ≤ maxA) (h : ∀ x ∈ out, x.verb ≠ "balance") :
    ((reorderQuoteSwap (if out.all (fun y => y.verb != "balance")
        then balanceSanAction :: out else out)).take maxA).head?.map
      (fun y => y.verb) = some "balance" := by
  rw [if_pos (by simp only [List.all_eq_true, bne_iff_ne]; exact h)]
  obtain ⟨l', hl'⟩ := reorderQuoteSwap_head_cons balanceSanAction out
    (by decide) (by decide)
  rw [hl']
  exact take_head_cons _ _ _ hmax

/-- C4 (amended): the sanitized output starts with a `balance` action
whenever the input contains no action normalizing to the `balance` verb
(including the empty list — the synthetic balance check is prepended), and
whenever the input's first action is a `balance` action (it survives in
place).  An input whose only `balance` action sits in a later position keeps
it there (see the counterexample), so the balance-first property holds in
exactly these cases. -/
theorem sanitize_balance_first (acts : List RawAction)
    (budget cap micro : Option ℚ) (maxA : ℕ) (hmax : 1 ≤ maxA) :
    ((∀ a ∈ acts, normVerb a.verb ≠ "balance") →
      ((_sanitize_actions acts maxA budget cap micro).head?.map
        (fun y => y.verb)) = some "balance") ∧
    (∀ a rest, acts = a :: rest → normVerb a.verb = "balance" →
      ((_sanitize_actions acts maxA budget cap micro).head?.map
        (fun y => y.verb)) = some "balance") := by
  constructor
  · intro hno
    obtain ⟨t, ht, hmem⟩ := sanitizeLoop_append acts budget cap
      (effMicro micro) maxA []
    simp only [_sanitize_actions, ht, List.nil_append]
    refine postprocess_head_balance_inject t maxA hmax ?_
    intro x hx
    obtain ⟨a, ha, hxa⟩ := hmem x hx
    rw [hxa]
    exact hno a ha
  · rintro a rest rfl hbal
    simp only [_sanitize_actions, sanitizeLoop, List.nil_append]
    rw [hbal]
    rw [if_pos (show "balance" ∈ ALLOWED_VERBS by decide)]
    obtain ⟨sa, hsa, hv⟩ := sanitizeStep_some_of_not_qs "balance" a
      budget cap (effMicro micro) (by decide)
    rcases hstep : sanitizeStep "balance" a budget cap
      (effMicro micro) with ⟨osa, r₂⟩
    rw [hstep] at hsa
    simp only at hsa
    subst hsa
    dsimp only
    have hsv : sa.verb = "balance" := hv
    by_cases hlen : maxA ≤ [sa].length
    · rw [if_pos hlen]
      exact postprocess_head_balance [sa] maxA hmax (Or.inr ⟨sa, [], rfl, hsv⟩)
    · rw [if_neg hlen]
      obtain ⟨t, ht, -⟩ := sanitizeLoop_append rest r₂ cap
        (effMicro micro) maxA [sa]
      rw [ht, List.singleton_append]
      exact postprocess_head_balance (sa :: t) maxA hmax
        (Or.inr ⟨sa, t, rfl, hsv⟩)

/-- Witness for C4 (amended): an input with no balance action gets one
prepended, and an input starting with balance keeps it first. -/
theorem sanitize_balance_first_witness :
    ((_sanitize_actions [stakeAction04] 3 (some 1) (some 1)
        (some (1/20))).head?.map (fun y => y.verb)) = some "balance" :=
  (sanitize_balance_first [stakeAction04] (some 1) (some 1) (some (1/20)) 3
    (by norm_num)).1 (by decide)

/-- A well-formed quote action (has `in`/`out` and a small amount). -/
def quoteAction01 : RawAction :=
  ⟨some "quote", ⟨PyVal.str "0.01", true, true, Option.none⟩, Option.none⟩

/-- A raw balance action. -/
def balanceActionRaw : RawAction :=
  ⟨some "balance", ⟨PyVal.none_, false, false, Option.none⟩, Option.none⟩

/-- C4 (counterexample): an input list containing a `balance` action in a
non-first position is NOT reordered — the sanitized output starts with the
`quote`, not with `balance`, refuting the claim that the first element is
always `balance`. -/
theorem sanitize_balance_not_first_cex :
    ((_sanitize_actions [quoteAction01, balanceActionRaw] 3 (some 1) (some 1)
        (some (1/20))).map (fun y => y.verb)) = ["quote", "balance"] := by
  decide

/-- C5 (counterexample): with `max_actions = 3` and three surviving `quote`
actions (none of them `balance`), the injected balance check does NOT extend
the output to `max_actions + 1 = 4`: the final slice truncates back to 3,
dropping the last survivor. -/
theorem sanitize_truncation_cex :
    ((_sanitize_actions [quoteAction01, quoteAction01, quoteAction01] 3
        (some 1) (some 1) (some (1/20))).map (fun y => y.verb))
      = ["balance", "quote", "quote"] ∧
    (_sanitize_actions [quoteAction01, quoteAction01, quoteAction01] 3
        (some 1) (some 1) (some (1/20))).length = 3 := by
  constructor <;> decide

/-- C5 (amended): the final truncation to `max_actions` happens after the
balance injection, so the sanitized list never exceeds `max_actions`
elements — when an injected balance check was needed at full capacity, the
last surviving action is dropped instead of the list growing to
`max_actions + 1`. -/
theorem sanitize_length_le (acts : List RawAction) (maxA : ℕ)
    (budget cap micro : Option ℚ) :
    (_sanitize_actions acts maxA budget cap micro).length ≤ maxA := by
  simp only [_sanitize_actions]
  rw [List.length_take]
  exact min_le_left _ _

/-! ## Option normalization (`_as_option_dict` and `_prepare_options`) -/

/-- An option mapping, restricted to the keys the two normalizers read
(`name`, `strategy`, `summary`, `plan_summary`, `rationale`, `plan`); keys
the code never reads (`tradeoffs`, free-form extras) carry no logic and are
omitted, cf. the header. -/
structure OptDict where
  name : Option String
  strategy : Option String
  summary : Option String
  plan_summary : Option String
  rationale : Option String
  plan : Option (List RawAction)
deriving DecidableEq, Repr

/-- An entry of a raw `options` list: a mapping, a bare string, or any other
value (carried as its `str()` rendering, which is all the code uses). -/
inductive RawOpt where
  | dict (o : OptDict)
  | str (s : String)
  | other (rendering : String)
deriving DecidableEq, Repr

/-- The empty-`params` raw balance action synthesized by `_as_option_dict`
for string options (its dict carries `requires_approval: False`). -/
def fallbackBalanceAction : RawAction :=
  ⟨some "balance", ⟨PyVal.none_, false, false, Option.none⟩, some false⟩

/-- Python `_as_option_dict(item, default_actions)` of `llm_planner.py`:
mappings pass through (an absent `plan` is filled with `default_actions or
[]`); strings are wrapped into a synthetic "Validate funds first." option
whose plan is `default_actions or [balance]`; any other value is wrapped
with its `str()` as name.  The `json.loads` attempt on strings is modelled
on its failure path only: none of the embedded scenarios feeds a
JSON-encoded option string, and prose strings always fail to parse. -/
def _as_option_dict (item : RawOpt) (default_actions : List RawAction) :
    OptDict :=
  match item with
  | RawOpt.dict o =>
      if o.plan = Option.none then { o with plan := some default_actions }
      else o
  | RawOpt.str s =>
      let s := pyStrip s
      { name := some (if s = "" then "Option" else s),
        strategy := some "Validate funds first.",
        summary := Option.none,
        plan_summary := Option.none,
        rationale := some "Normalized from string option.",
        plan := some (if default_actions.isEmpty then [fallbackBalanceAction]
          else default_actions) }
  | RawOpt.other rendering =>
      { name := some rendering,
        strategy := Option.none,
        summary := Option.none,
        plan_summary := Option.none,
        rationale := Option.none,
        plan := some (if default_actions.isEmpty then [fallbackBalanceAction]
          else default_actions) }

/-- The raw `options` field of a plan mapping as read by the two planners: a
list, a bare string, or absent / any falsy or non-sequence value. -/
inductive OptionsField where
  | list (l : List RawOpt)
  | strF (s : String)
  | absent
deriving DecidableEq, Repr

/-- Python truthiness filter for optional strings: `None` and `""` are
falsy. -/
def truthyStr : Option String → Option String
  | some s => if s = "" then Option.none else some s
  | Option.none => Option.none

def CSA_BUCKETS : List String := ["Conservative", "Standard", "Aggressive"]

/-- A bucketed option produced by `_prepare_options` (the fields the code
writes or claims read; unmodelled source keys pass through unchanged and
carry no logic). -/
structure PreparedOption where
  name : String
  bucket : String
  strategy : String
  rationale : String
  plan : List RawAction
deriving DecidableEq, Repr

/-- Python `options_list = raw_options if isinstance(raw_options, Sequence) else
[]` inside `_prepare_options`.  A Python string is itself a `Sequence`:
indexing it yields its 1-character strings. -/
def optionsSeq : OptionsField → List RawOpt
  | OptionsField.list l => l
  | OptionsField.strF s => s.data.map (fun ch => RawOpt.str (String.singleton ch))
  | OptionsField.absent => []

/-- The per-bucket body of `_prepare_options`: `setdefault("name", bucket)`,
attach the bucket tag, normalize `plan` to a list, and synthesize `strategy`
from `strategy`/`summary`/`plan_summary`, else from the uppercased verbs of
the plan, else as the bucket-scenario placeholder. -/
def prepareOne (bucket : String) (o : OptDict) : PreparedOption :=
  let plan := o.plan.getD []
  let strategy0 := (truthyStr o.strategy).orElse
    (fun _ => (truthyStr o.summary).orElse (fun _ => truthyStr o.plan_summary))
  let verbs := plan.filterMap (fun step => (truthyStr step.verb).map pyUpper)
  let strategy1 := strategy0.orElse
    (fun _ => if verbs.isEmpty then Option.none
      else some (String.intercalate " → " verbs))
  { name := o.name.getD bucket,
    bucket := bucket,
    strategy := strategy1.getD (bucket ++ " scenario"),
    rationale := o.rationale.getD "",
    plan := plan }

/-- Python `_prepare_options(raw_options)` of `exec_ready_planner.py`:
always three options, one per CSA bucket in fixed order; a missing or
non-mapping source entry contributes an empty mapping. -/
def _prepare_options (raw_options : OptionsField) : List PreparedOption :=
  let options_list := optionsSeq raw_options
  CSA_BUCKETS.enum.map (fun p =>
    let o : OptDict := match options_list.get? p.1 with
      | some (RawOpt.dict o) => o
      | _ => ⟨Option.none, Option.none, Option.none, Option.none,
          Option.none, Option.none⟩
    prepareOne p.2 o)

/-! ## The `generate_plan` normalization fragment (default-option selection) -/

/-- The fields of the model plan mapping that drive option normalization and
default selection inside `generate_plan`: `default_option`, `options`, and
the root `actions` list.  The `choices` alias for `options` is never used by
the claims under study and is folded into `options`. -/
structure ModelPlan where
  default_option : Option String
  options : OptionsField
  actions : Option (List RawAction)
deriving DecidableEq, Repr

/-- Python `raw_options = model_plan.get("options") or [] ; if not
isinstance(raw_options, list): raw_options = [raw_options]`: a truthy
non-list (e.g. a bare string) is wrapped whole. -/
def rawOptionsList (f : OptionsField) : List RawOpt :=
  match f with
  | OptionsField.list l => l
  | OptionsField.strF s => if s = "" then [] else [RawOpt.str s]
  | OptionsField.absent => []

/-- Python `norm_options = [_as_option_dict(o, model_plan.get("actions") or []) for
o in raw_options]`. -/
def normOptions (mp : ModelPlan) : List OptDict :=
  (rawOptionsList mp.options).map
    (fun o => _as_option_dict o (mp.actions.getD []))

/-- Python `default_name = str(model_plan.get("default_option") or
"Standard").strip()`. -/
def defaultName (mp : ModelPlan) : String :=
  pyStrip (match mp.default_option with
    | some s => if s = "" then "Standard" else s
    | Option.none => "Standard")

/-- Python `chosen = next((opt for opt in norm_options if str(opt.get("name",
"")).strip().lower() == default_name.lower()), None)`. -/
def chooseDefault (mp : ModelPlan) : Option OptDict :=
  (normOptions mp).find?
    (fun o => pyLower (pyStrip (o.name.getD "")) == pyLower (defaultName mp))

/-- Python `chosen_actions = (chosen or {}).get("plan") or model_plan.get("actions")
or []`. -/
def chosenActions (mp : ModelPlan) : List RawAction :=
  let fromChosen := match chooseDefault mp with
    | some o => o.plan.getD []
    | Option.none => []
  if fromChosen.isEmpty then mp.actions.getD [] else fromChosen

/-- The root `actions` field assembled by `generate_plan`: the chosen
default option's plan, sanitized against the balance hints. -/
def genPlanActions (mp : ModelPlan)
    (max_affordable per_action_cap auto_micro : ℚ) (max_actions : ℕ) :
    List SanAction :=
  _sanitize_actions (chosenActions mp) max_actions (some max_affordable)
    (some per_action_cap) (some auto_micro)

/-- C6: `generate_plan` selects the default option by case-insensitive match
of each option's stripped name against the raw plan's `default_option`
(falling back to "Standard" when the field is absent), and the output's
root-level `actions` field holds that option's sanitized plan (when the
selected option has a non-empty plan). -/
theorem generate_plan_default_selection (mp : ModelPlan)
    (maxAfford cap micro : ℚ) (maxA : ℕ) :
    (mp.default_option = Option.none → defaultName mp = "Standard") ∧
    (∀ o, chooseDefault mp = some o →
      o ∈ normOptions mp ∧
      pyLower (pyStrip (o.name.getD "")) = pyLower (defaultName mp)) ∧
    (∀ o p, chooseDefault mp = some o → o.plan = some p → p ≠ [] →
      genPlanActions mp maxAfford cap micro maxA =
        _sanitize_actions p maxA (some maxAfford) (some cap) (some micro)) := by
  refine ⟨?_, ?_, ?_⟩
  · intro h
    simp only [defaultName, h]
    decide
  · intro o hfind
    refine ⟨List.mem_of_find?_eq_some hfind, ?_⟩
    have hp := List.find?_some hfind
    exact eq_of_beq hp
  · intro o p hc hp hne
    have hfc : chosenActions mp = p := by
      simp only [chosenActions, hc, hp, Option.getD_some]
      rw [if_neg (by simpa [List.isEmpty_iff] using hne)]
    rw [genPlanActions, hfc]

/-- A concrete model plan whose single option is named in lower case while
the selection falls back to "Standard". -/
def mpStandard : ModelPlan :=
  ⟨Option.none,
   OptionsField.list [RawOpt.dict ⟨some "standard", Option.none, Option.none,
     Option.none, Option.none, some [balanceActionRaw]⟩],
   Option.none⟩

/-- Witness for C6: the lower-case-named option "standard" is selected for
the fallback default "Standard" and its plan drives the root actions. -/
theorem generate_plan_default_selection_witness :
    genPlanActions mpStandard 1 1 (1/20) 3 =
      _sanitize_actions [balanceActionRaw] 3 (some 1) (some 1)
        (some (1/20)) :=
  (generate_plan_default_selection mpStandard 1 1 (1/20) 3).2.2
    ⟨some "standard", Option.none, Option.none, Option.none, Option.none,
      some [balanceActionRaw]⟩
    [balanceActionRaw] (by decide) rfl (by decide)

/-- C7: when the raw plan's `options` field is the bare string
"do something safe", option normalization (`_as_option_dict` inside
`generate_plan` followed by `_prepare_options` inside
`build_exec_ready_plan`) produces exactly 3 options tagged Conservative /
Standard / Aggressive in that fixed order, the first carrying the synthetic
"Validate funds first." fallback strategy and a plan of a single balance
action.  (Both functions are total in this embedding: no exception path
exists.) -/
theorem options_string_normalization :
    (_prepare_options (OptionsField.list
        ((rawOptionsList (OptionsField.strF "do something safe")).map
          (fun o => RawOpt.dict (_as_option_dict o []))))).length = 3 ∧
    (_prepare_options (OptionsField.list
        ((rawOptionsList (OptionsField.strF "do something safe")).map
          (fun o => RawOpt.dict (_as_option_dict o []))))).map
      (fun o => o.bucket) = ["Conservative", "Standard", "Aggressive"] ∧
    ((_prepare_options (OptionsField.list
        ((rawOptionsList (OptionsField.strF "do something safe")).map
          (fun o => RawOpt.dict (_as_option_dict o []))))).head?.map
      (fun o => o.strategy)) = some "Validate funds first." ∧
    ((_prepare_options (OptionsField.list
        ((rawOptionsList (OptionsField.strF "do something safe")).map
          (fun o => RawOpt.dict (_as_option_dict o []))))).head?.map
      (fun o => o.plan)) = some [fallbackBalanceAction] := by
  refine ⟨?_, ?_, ?_, ?_⟩ <;> decide

/-! ## Claim C8: amount coercion -/

lemma fmt9_neg_half : fmt9 (-(1/2)) = "-0.500000000" := by
  simp only [fmt9]
  rw [if_pos (show (-(1/2) : ℚ) < 0 by norm_num)]
  have habs : |(-(1/2) : ℚ)| = 1/2 := by
    rw [abs_neg]
    exact abs_of_nonneg (by norm_num)
  rw [habs]
  have hfloor : ⌊(1/2 : ℚ) * 1000000000 + 1/2⌋ = 500000000 := by norm_num
  rw [hfloor]
  decide

lemma parseDec_neg_half : parseDec? "-0.5" = some (-(1/2) : ℚ) := by
  have h : parseDec? "-0.5"
      = some ((-1 : ℚ) * (((0:ℕ) : ℚ) + ((5:ℕ) : ℚ) / (10 : ℚ) ^ (1:ℕ))) :=
    rfl
  rw [h]
  norm_num

/-- C8 (counterexample): `_coerce_str_amount` does NOT substitute the default
for a negative number — `-0.5` passes straight through as the negative
amount string "-0.5", which re-parses to a negative value; zero likewise
passes through as "0" rather than the default. -/
theorem coerce_negative_passthrough :
    _coerce_str_amount (PyVal.num (-(1/2))) "0.10" = "-0.5" ∧
    _to_float_amount (PyVal.str "-0.5") 0 < 0 ∧
    _coerce_str_amount (PyVal.num 0) "0.10" = "0" := by
  refine ⟨?_, ?_, ?_⟩
  · show rstripChar '.' (rstripChar '0' (fmt9 (-(1/2)))) = "-0.5"
    rw [fmt9_neg_half]
    decide
  · show (parseDec? (pyStrip "-0.5")).getD 0 < 0
    have hps : pyStrip "-0.5" = "-0.5" := by decide
    rw [hps, parseDec_neg_half]
    norm_num
  · show rstripChar '.' (rstripChar '0' (fmt9 0)) = "0"
    have h0 : fmt9 0 = "0.000000000" := by
      simp only [fmt9]
      rw [if_neg (show ¬((0 : ℚ) < 0) by norm_num)]
      have hfloor : ⌊|(0 : ℚ)| * 1000000000 + 1/2⌋ = 0 := by
        rw [abs_zero]
        norm_num
      rw [hfloor]
      decide
    rw [h0]
    decide

lemma coerce_str_default_of_no_match (s d : String)
    (h : matchesAmountRe (pyStrip s) = false) :
    _coerce_str_amount (PyVal.str s) d = d := by
  simp only [_coerce_str_amount]
  rw [if_neg (by simp [h])]

/-- C8 (amended): amount coercion never raises (it is total); a missing or
non-matching string input — including any negative numeric string, since the
regular expression admits no sign — yields the caller-supplied default; but
a raw number passes through `_coerce_str_amount` formatted as-is, so zero
and negative numbers are NOT replaced by the default there.  Non-negativity
and default substitution for non-positive amounts are instead enforced at
the call site by `_clamp_amount_to_budget_and_cap`. -/
theorem coerce_amount_amended (s : String) (q : ℚ) (d : String) (v : PyVal)
    (r c dflt : ℚ) :
    (matchesAmountRe (pyStrip s) = false →
      _coerce_str_amount (PyVal.str s) d = d) ∧
    _coerce_str_amount PyVal.none_ d = d ∧
    _coerce_str_amount (PyVal.num q) d
      = rstripChar '.' (rstripChar '0' (fmt9 q)) ∧
    0 ≤ (clampAmountNum v r c dflt).1 ∧
    (_to_float_amount v 0 ≤ 0 →
      (clampAmountNum v r c dflt).1 = max 0 (min (max 0 dflt) (min c r))) :=
  ⟨coerce_str_default_of_no_match s d, rfl, rfl,
    clampAmountNum_fst_nonneg v r c dflt,
    fun h => clampAmountNum_default v r c dflt h⟩

/-- Witness for C8 (amended): the negative numeric string "-0.5" fails the
regular expression and yields the default. -/
theorem coerce_amount_amended_witness :
    _coerce_str_amount (PyVal.str "-0.5") "0.10" = "0.10" :=
  (coerce_amount_amended "-0.5" 0 "0.10" PyVal.none_ 0 0 0).1 (by decide)

end Goblin
